import Mathlib

/-!
Shallow embedding of `src/cq_gears/ring_gear.py`: the constructor
`RingGear.__init__`, which derives the gear parameters and computes the four
boundary curves of one tooth of an internal (ring) gear.

Machine floats are modelled by real numbers; the numpy arrays of sampled
points are modelled by functions from the sample index (and by lists of
fixed length where a curve's length matters).  `np.linspace`, `np.clip` and
`np.arctan2` are embedded directly.  The helper `circle3d_by3points` is
imported by the source from `cq_gears.utils`, a file that is not among the
provided sources; it is modelled from the spec (component CircleFit3Point).
-/

open Real

noncomputable section

namespace CqGears

/-- The macro inputs of `RingGear.__init__`
(`module, teeth_number, width, rim_width, pressure_angle, helix_angle,
clearance, backlash, curve_points, surface_splines`).
Angles are in degrees, exactly as the source receives them. -/
structure GearSpec where
  module : ℝ
  teeth_number : ℕ
  width : ℝ
  rim_width : ℝ
  pressure_angle : ℝ
  helix_angle : ℝ
  clearance : ℝ
  backlash : ℝ
  curve_points : ℕ
  surface_splines : ℕ

/-- `a0 = np.radians(pressure_angle)`. -/
def a0 (g : GearSpec) : ℝ := g.pressure_angle * π / 180

/-- `d0 = m * z`, the pitch diameter. -/
def d0 (g : GearSpec) : ℝ := g.module * g.teeth_number

/-- `adn = 1.0 / (z / d0)`, the addendum. -/
def adn (g : GearSpec) : ℝ := 1 / ((g.teeth_number : ℝ) / d0 g)

/-- `ddn = 1.25 / (z / d0)`, the dedendum. -/
def ddn (g : GearSpec) : ℝ := 1.25 / ((g.teeth_number : ℝ) / d0 g)

/-- `da = d0 - 2.0 * adn`, the addendum circle diameter. -/
def da (g : GearSpec) : ℝ := d0 g - 2 * adn g

/-- `dd = d0 + 2.0 * ddn + 2.0 * clearance`, the dedendum circle diameter. -/
def dd (g : GearSpec) : ℝ := d0 g + 2 * ddn g + 2 * g.clearance

/-- `s0 = m * (np.pi / 2.0 + backlash * np.tan(a0))`, tooth thickness on the
pitch circle. -/
def s0 (g : GearSpec) : ℝ := g.module * (π / 2 + g.backlash * tan (a0 g))

/-- `inv_a0 = np.tan(a0) - a0`. -/
def inv_a0 (g : GearSpec) : ℝ := tan (a0 g) - a0 g

/-- `r0 = d0 / 2.0`, the pitch radius. -/
def r0 (g : GearSpec) : ℝ := d0 g / 2

/-- `ra = da / 2.0`, the addendum radius. -/
def ra (g : GearSpec) : ℝ := da g / 2

/-- `rd = dd / 2.0`, the dedendum radius. -/
def rd (g : GearSpec) : ℝ := dd g / 2

/-- `rb = np.cos(a0) * d0 / 2.0`, the base circle radius. -/
def rb (g : GearSpec) : ℝ := cos (a0 g) * d0 g / 2

/-- `rr = max(rb, rd)`, the tooth root radius. -/
def rr (g : GearSpec) : ℝ := max (rb g) (rd g)

/-- `tau = np.pi * 2.0 / z`, the pitch angle. -/
def tau (g : GearSpec) : ℝ := π * 2 / g.teeth_number

/-- `rim_r = rd + rim_width`. -/
def rim_r (g : GearSpec) : ℝ := rd g + g.rim_width

/-- `self.twist_angle`: `width / (r0 * np.tan(np.pi/2 - helix_angle))` when
`helix_angle != 0.0`, else `0.0`. -/
def twist_angle (g : GearSpec) : ℝ :=
  if g.helix_angle = 0 then 0
  else g.width / (r0 g * tan (π / 2 - g.helix_angle * π / 180))

/-- `np.linspace(lo, hi, n)` at index `i` (for `n ≥ 2`:
`lo + i * (hi - lo) / (n - 1)`). -/
def linspace (lo hi : ℝ) (n i : ℕ) : ℝ := lo + i * ((hi - lo) / ((n : ℝ) - 1))

/-- `r = np.linspace(ra, rr, curve_points)`: the sampled flank radii. -/
def r (g : GearSpec) (i : ℕ) : ℝ := linspace (ra g) (rr g) g.curve_points i

/-- `cos_a = r0 / r * np.cos(a0)` at sample `i`. -/
def cos_a (g : GearSpec) (i : ℕ) : ℝ := r0 g / r g i * cos (a0 g)

/-- `np.clip(x, -1.0, 1.0)`. -/
def clip (x : ℝ) : ℝ := min 1 (max (-1) x)

/-- `a = np.arccos(np.clip(cos_a, -1.0, 1.0))` at sample `i`
(the source's array `a`). -/
def aVal (g : GearSpec) (i : ℕ) : ℝ := arccos (clip (cos_a g i))

/-- `inv_a = np.tan(a) - a` at sample `i`. -/
def inv_a (g : GearSpec) (i : ℕ) : ℝ := tan (aVal g i) - aVal g i

/-- `s = r * (s0 / d0 + inv_a0 - inv_a)` at sample `i`
(the source's array `s`). -/
def sVal (g : GearSpec) (i : ℕ) : ℝ := r g i * (s0 g / d0 g + inv_a0 g - inv_a g i)

/-- `phi = s / r` at sample `i`. -/
def phi (g : GearSpec) (i : ℕ) : ℝ := sVal g i / r g i

/-- Left-flank point `i`:
`(tsidel_x, tsidel_y) = (np.cos(phi) * r, np.sin(phi) * r)`. -/
def tsidel (g : GearSpec) (i : ℕ) : ℝ × ℝ :=
  (cos (phi g i) * r g i, sin (phi g i) * r g i)

/-- `b = np.linspace(phi[-1], -phi[-1], curve_points)` at index `i`. -/
def bAngle (g : GearSpec) (i : ℕ) : ℝ :=
  linspace (phi g (g.curve_points - 1)) (-phi g (g.curve_points - 1)) g.curve_points i

/-- Tip-arc point `i`: `(ttip_x, ttip_y) = (np.cos(b) * rd, np.sin(b) * rd)`. -/
def ttip (g : GearSpec) (i : ℕ) : ℝ × ℝ :=
  (cos (bAngle g i) * rd g, sin (bAngle g i) * rd g)

/-- Right-flank point `i`:
`(tsider_x, tsider_y) = ((np.cos(-phi) * r)[::-1], (np.sin(-phi) * r)[::-1])`,
i.e. the mirrored left flank read in reverse order. -/
def tsider (g : GearSpec) (i : ℕ) : ℝ × ℝ :=
  (cos (-phi g (g.curve_points - 1 - i)) * r g (g.curve_points - 1 - i),
   sin (-phi g (g.curve_points - 1 - i)) * r g (g.curve_points - 1 - i))

/-- `rho = tau - phi[0] * 2.0`. -/
def rho (g : GearSpec) : ℝ := tau g - phi g 0 * 2

/-- `p1 = (tsider_x[-1], tsider_y[-1])`, the last right-flank point (the
source carries a third, always-zero coordinate which is dropped here). -/
def p1 (g : GearSpec) : ℝ × ℝ := tsider g (g.curve_points - 1)

/-- `p2 = (np.cos(-phi[0] - rho/2) * ra, np.sin(-phi[0] - rho/2) * ra)`. -/
def p2 (g : GearSpec) : ℝ × ℝ :=
  (cos (-phi g 0 - rho g / 2) * ra g, sin (-phi g 0 - rho g / 2) * ra g)

/-- `p3 = (np.cos(-phi[0] - rho) * ra, np.sin(-phi[0] - rho) * ra)`. -/
def p3 (g : GearSpec) : ℝ × ℝ :=
  (cos (-phi g 0 - rho g) * ra g, sin (-phi g 0 - rho g) * ra g)

/-- Modelled from the spec: `circle3d_by3points` is imported by the source
from `cq_gears.utils`, which is not among the provided sources.  Per the
spec (component CircleFit3Point) it returns the `(radius, center)` of the
unique circle through three points, computed by the circumcenter
construction (perpendicular-bisector linear solve), and fails with
DegenerateGeometry when the points are collinear (zero determinant of the
bisector system); the failure is modelled by `none`. -/
def circle3d_by3points (q1 q2 q3 : ℝ × ℝ) : Option (ℝ × (ℝ × ℝ)) :=
  let ax := q2.1 - q1.1
  let ay := q2.2 - q1.2
  let bx := q3.1 - q1.1
  let by2 := q3.2 - q1.2
  let det := 2 * (ax * by2 - ay * bx)
  if det = 0 then none
  else
    let u := q2.1 ^ 2 + q2.2 ^ 2 - q1.1 ^ 2 - q1.2 ^ 2
    let v := q3.1 ^ 2 + q3.2 ^ 2 - q1.1 ^ 2 - q1.2 ^ 2
    let cx := (by2 * u - ay * v) / det
    let cy := (ax * v - bx * u) / det
    some (sqrt ((q1.1 - cx) ^ 2 + (q1.2 - cy) ^ 2), (cx, cy))

/-- `np.arctan2(y, x)`, the angle of the point `(x, y)` in `(-π, π]`. -/
def atan2 (y x : ℝ) : ℝ := Complex.arg (Complex.mk x y)

/-- `bcr, bcxy = circle3d_by3points(p1, p2, p3)` applied to the three
root-arc construction points. -/
def rootFit (g : GearSpec) : Option (ℝ × (ℝ × ℝ)) :=
  circle3d_by3points (p1 g) (p2 g) (p3 g)

/-- The fitted root-arc radius `bcr` (junk default when the fit is
degenerate; the source would have failed inside `circle3d_by3points`). -/
def bcr (g : GearSpec) : ℝ := ((rootFit g).getD (0, (0, 0))).1

/-- The fitted root-arc center `bcxy`. -/
def bcxy (g : GearSpec) : ℝ × ℝ := ((rootFit g).getD (0, (0, 0))).2

/-- `t1 = np.arctan2(p1[1] - bcxy[1], p1[0] - bcxy[0])`. -/
def t1 (g : GearSpec) : ℝ := atan2 ((p1 g).2 - (bcxy g).2) ((p1 g).1 - (bcxy g).1)

/-- `t2 = np.arctan2(p3[1] - bcxy[1], p3[0] - bcxy[0])`. -/
def t2 (g : GearSpec) : ℝ := atan2 ((p3 g).2 - (bcxy g).2) ((p3 g).1 - (bcxy g).1)

/-- `t1` after `if t1 < 0.0: t1 += np.pi * 2.0`. -/
def t1n (g : GearSpec) : ℝ := if t1 g < 0 then t1 g + π * 2 else t1 g

/-- `t2` after `if t2 < 0.0: t2 += np.pi * 2.0`. -/
def t2n (g : GearSpec) : ℝ := if t2 g < 0 then t2 g + π * 2 else t2 g

/-- `min(t1, t2)` after the normalization (the source's final `t1`). -/
def tLo (g : GearSpec) : ℝ := min (t1n g) (t2n g)

/-- `max(t1, t2)` after the normalization (the source's final `t2`). -/
def tHi (g : GearSpec) : ℝ := max (t1n g) (t2n g)

/-- `t = np.linspace(t2 + np.pi * 2.0, t1 + np.pi * 2.0, curve_points)`. -/
def tAngle (g : GearSpec) (i : ℕ) : ℝ :=
  linspace (tHi g + π * 2) (tLo g + π * 2) g.curve_points i

/-- Root-arc point `i`:
`(troot_x, troot_y) = (bcxy[0] + bcr * np.cos(t), bcxy[1] + bcr * np.sin(t))`. -/
def troot (g : GearSpec) (i : ℕ) : ℝ × ℝ :=
  ((bcxy g).1 + bcr g * cos (tAngle g i), (bcxy g).2 + bcr g * sin (tAngle g i))

/-- The spec's error taxonomy (section 7).  The source constructor itself
raises neither; `DegenerateGeometry` is the failure of the modelled
`circle3d_by3points`, and `InvalidParameter` exists in the taxonomy so that
claims about it can be stated. -/
inductive GearError where
  | InvalidParameter
  | DegenerateGeometry
deriving DecidableEq

/-- The four curves of one tooth, as ordered point lists. -/
structure ToothProfile where
  left_flank : List (ℝ × ℝ)
  tip_arc : List (ℝ × ℝ)
  right_flank : List (ℝ × ℝ)
  root_arc : List (ℝ × ℝ)

/-- The left flank as a list of `curve_points` points. -/
def tsidelList (g : GearSpec) : List (ℝ × ℝ) := (List.range g.curve_points).map (tsidel g)

/-- The tip arc as a list of `curve_points` points. -/
def ttipList (g : GearSpec) : List (ℝ × ℝ) := (List.range g.curve_points).map (ttip g)

/-- The right flank as a list of `curve_points` points. -/
def tsiderList (g : GearSpec) : List (ℝ × ℝ) := (List.range g.curve_points).map (tsider g)

/-- The root arc as a list of `curve_points` points. -/
def trootList (g : GearSpec) : List (ℝ × ℝ) := (List.range g.curve_points).map (troot g)

/-- The whole constructor, as an entry point returning either an error or
the four curves.  The source performs no input validation whatsoever, so the
only fallible step is the circle fit of the root arc. -/
def toothProfile (g : GearSpec) : Except GearError ToothProfile :=
  match rootFit g with
  | none => Except.error GearError.DegenerateGeometry
  | some _ => Except.ok ⟨tsidelList g, ttipList g, tsiderList g, trootList g⟩

/-- A well-formed input per the spec (section 3 data model plus the
section 4.1 InvalidParameter conditions): `m>0`, `z≥1`, `width>0`,
`clearance≥0`, `curve_points≥2`, `cos(a0)>0`, `ra<rd`. -/
def Valid (g : GearSpec) : Prop :=
  0 < g.module ∧ 1 ≤ g.teeth_number ∧ 0 < g.width ∧ 0 ≤ g.clearance ∧
    2 ≤ g.curve_points ∧ 0 < cos (a0 g) ∧ ra g < rd g

/-- Angular reflection of a point: `y` negated, `x` preserved. -/
def reflectY (p : ℝ × ℝ) : ℝ × ℝ := (p.1, -p.2)

/-- Rotation by angle `t` about the origin. -/
def rotate (t : ℝ) (p : ℝ × ℝ) : ℝ × ℝ :=
  (cos t * p.1 - sin t * p.2, sin t * p.1 + cos t * p.2)

/-- Euclidean distance of two points. -/
def dist2 (p q : ℝ × ℝ) : ℝ := sqrt ((p.1 - q.1) ^ 2 + (p.2 - q.2) ^ 2)

/-- A small well-behaved example: `m=1, z=4`, zero pressure angle, zero
backlash, 20 points per curve. -/
def gEx : GearSpec :=
  ⟨1, 4, 1, 1, 0, 0, 0, 0, 20, 5⟩

/-- The example `gEx` with only two points per curve. -/
def gEx2 : GearSpec :=
  ⟨1, 4, 1, 1, 0, 0, 0, 0, 2, 5⟩

/-- A spec-valid input with `z = 2` teeth, for which `ra = 0` and the three
root-fit points all collapse to the origin. -/
def gZ2 : GearSpec :=
  ⟨1, 2, 1, 1, 0, 0, 0, 0, 2, 5⟩

/-- An input with a single tooth, for which `rho < 0`. -/
def gZ1 : GearSpec :=
  ⟨1, 1, 1, 1, 0, 0, 0, 0, 2, 5⟩

/-- A malformed input (`width = -1 ≤ 0`), otherwise equal to `gEx`. -/
def gBad : GearSpec :=
  ⟨1, 4, -1, 1, 0, 0, 0, 0, 20, 5⟩

/-- The spec's Scenario A input: `m=2, z=30, width=10, rim_width=5`,
20 degree pressure angle, 20 points per curve. -/
def gScenA : GearSpec :=
  ⟨2, 30, 10, 5, 20, 0, 0, 0, 20, 5⟩

/-! ### Basic facts about the sampling grid and the derived radii -/

lemma linspace_zero (lo hi : ℝ) (n : ℕ) : linspace lo hi n 0 = lo := by
  simp [linspace]

lemma linspace_last (lo hi : ℝ) {n : ℕ} (hn : 2 ≤ n) : linspace lo hi n (n - 1) = hi := by
  have h1 : (1 : ℕ) ≤ n := le_trans one_le_two hn
  have h2 : (2 : ℝ) ≤ (n : ℝ) := by exact_mod_cast hn
  have hne : (n : ℝ) - 1 ≠ 0 := by linarith
  rw [linspace, Nat.cast_sub h1, Nat.cast_one]
  field_simp

lemma linspace_between (lo hi : ℝ) {n i : ℕ} (hn : 2 ≤ n) (hin : i < n) :
    min lo hi ≤ linspace lo hi n i ∧ linspace lo hi n i ≤ max lo hi := by
  have h2 : (2 : ℝ) ≤ (n : ℝ) := by exact_mod_cast hn
  have hn1 : (0 : ℝ) < (n : ℝ) - 1 := by linarith
  have hi1 : (i : ℝ) ≤ (n : ℝ) - 1 := by
    have : (i : ℝ) + 1 ≤ (n : ℝ) := by exact_mod_cast Nat.succ_le_of_lt hin
    linarith
  set t : ℝ := (i : ℝ) / ((n : ℝ) - 1) with ht
  have ht0 : 0 ≤ t := div_nonneg (Nat.cast_nonneg i) hn1.le
  have ht1 : t ≤ 1 := by rw [ht, div_le_one hn1]; exact hi1
  have heq : linspace lo hi n i = (1 - t) * lo + t * hi := by
    rw [linspace, ht]; field_simp; ring
  constructor
  · rcases le_total lo hi with h | h
    · rw [min_eq_left h, heq]; nlinarith
    · rw [min_eq_right h, heq]; nlinarith
  · rcases le_total lo hi with h | h
    · rw [max_eq_right h, heq]; nlinarith
    · rw [max_eq_left h, heq]; nlinarith

lemma adn_eq {g : GearSpec} (hm : g.module ≠ 0) (hz : g.teeth_number ≠ 0) :
    adn g = g.module := by
  have hz' : (g.teeth_number : ℝ) ≠ 0 := Nat.cast_ne_zero.mpr hz
  rw [adn, d0]
  rw [div_mul_eq_div_div_swap, div_self hz', one_div, one_div, inv_inv]

lemma ddn_eq {g : GearSpec} (hm : g.module ≠ 0) (hz : g.teeth_number ≠ 0) :
    ddn g = 1.25 * g.module := by
  have hz' : (g.teeth_number : ℝ) ≠ 0 := Nat.cast_ne_zero.mpr hz
  rw [ddn, d0]
  rw [div_mul_eq_div_div_swap, div_self hz', one_div, div_eq_mul_inv, inv_inv]

lemma ra_eq {g : GearSpec} (hm : g.module ≠ 0) (hz : g.teeth_number ≠ 0) :
    ra g = g.module * g.teeth_number / 2 - g.module := by
  rw [ra, da, adn_eq hm hz, d0]; ring

lemma rd_eq {g : GearSpec} (hm : g.module ≠ 0) (hz : g.teeth_number ≠ 0) :
    rd g = g.module * g.teeth_number / 2 + 1.25 * g.module + g.clearance := by
  rw [rd, dd, ddn_eq hm hz, d0]; ring

lemma rb_le_r0 {g : GearSpec} (hd : 0 ≤ d0 g) : rb g ≤ r0 g := by
  rw [rb, r0]
  have h := Real.cos_le_one (a0 g)
  nlinarith

lemma r0_lt_rd {g : GearSpec} (hm : 0 < g.module) (hz : 1 ≤ g.teeth_number)
    (hc : 0 ≤ g.clearance) : r0 g < rd g := by
  have hz' : g.teeth_number ≠ 0 := by omega
  rw [r0, d0, rd_eq hm.ne' hz']
  nlinarith

lemma rr_eq_rd {g : GearSpec} (hm : 0 < g.module) (hz : 1 ≤ g.teeth_number)
    (hc : 0 ≤ g.clearance) : rr g = rd g := by
  have hd : 0 ≤ d0 g := by
    rw [d0]; positivity
  exact max_eq_right ((rb_le_r0 hd).trans (r0_lt_rd hm hz hc).le)

lemma ra_pos {g : GearSpec} (hm : 0 < g.module) (hz3 : 3 ≤ g.teeth_number) :
    0 < ra g := by
  have hz3' : (3 : ℝ) ≤ (g.teeth_number : ℝ) := by exact_mod_cast hz3
  rw [ra_eq hm.ne' (by omega)]
  nlinarith

lemma r_zero (g : GearSpec) : r g 0 = ra g := linspace_zero _ _ _

lemma r_last {g : GearSpec} (hn : 2 ≤ g.curve_points) :
    r g (g.curve_points - 1) = rr g := linspace_last _ _ hn

lemma a0_gEx : a0 gEx = 0 := by simp [a0, gEx]

lemma valid_gEx : Valid gEx := by
  refine ⟨by norm_num [gEx], by norm_num [gEx], by norm_num [gEx], by norm_num [gEx],
    by norm_num [gEx], ?_, ?_⟩
  · rw [a0_gEx]; simp
  · rw [ra_eq (by norm_num [gEx]) (by norm_num [gEx]),
      rd_eq (by norm_num [gEx]) (by norm_num [gEx])]
    norm_num [gEx]

/-! ### Claim C8: the arccos clamp -/

/-- C8: for every input and every sampled flank radius, the argument the
source passes to `arccos` is the unconditionally clamped value
`clip(cos_a)`, which always lies in `[-1, 1]`, so the `arccos` step is total
and its result is a well-defined angle in `[0, π]`; no error is ever
produced by this step. -/
theorem C8_arccos_clamp (g : GearSpec) (i : ℕ) :
    (-1 ≤ clip (cos_a g i) ∧ clip (cos_a g i) ≤ 1) ∧
      aVal g i = arccos (clip (cos_a g i)) ∧
      0 ≤ aVal g i ∧ aVal g i ≤ π := by
  refine ⟨⟨le_min (by norm_num) (le_max_left _ _), min_le_left _ _⟩, rfl, ?_, ?_⟩
  · exact Real.arccos_nonneg _
  · exact Real.arccos_le_pi _

/-! ### Claim C5: the mirror law -/

/-- C5: for every valid `GearSpec` and every index `i < curve_points`, the
right flank's `i`-th point is the angular reflection (`y` negated, `x`
preserved) of the left flank's point at index `curve_points - 1 - i`; the
equality is exact, hence within the claimed `1e-9` tolerance. -/
theorem C5_mirror_law (g : GearSpec) (hv : Valid g) (i : ℕ)
    (hi : i < g.curve_points) :
    tsider g i = reflectY (tsidel g (g.curve_points - 1 - i)) := by
  unfold tsider tsidel reflectY
  simp [Real.cos_neg, Real.sin_neg, neg_mul]

/-- Witness for C5 at the concrete input `gEx`, index `0`. -/
theorem C5_witness :
    Valid gEx ∧ 0 < gEx.curve_points ∧
      tsider gEx 0 = reflectY (tsidel gEx (gEx.curve_points - 1 - 0)) :=
  ⟨valid_gEx, by norm_num [gEx], C5_mirror_law gEx valid_gEx 0 (by norm_num [gEx])⟩

/-! ### Claim C9: the internal-gear radius invariant -/

lemma a0_gScenA : a0 gScenA = π / 9 := by
  simp only [a0, gScenA]
  ring

/-- C9: for every valid input (`m>0`, `z≥1`, `clearance≥0`, `cos(a0)>0`)
the derived radii satisfy `ra < r0 < rd` (the internal-gear role reversal);
and in Scenario A (`m=2, z=30, rim_width=5`) moreover `rim_r = rd + 5`. -/
theorem C9_radius_invariant :
    (∀ g : GearSpec, 0 < g.module → 1 ≤ g.teeth_number → 0 ≤ g.clearance →
      0 < cos (a0 g) → ra g < r0 g ∧ r0 g < rd g) ∧
      rim_r gScenA = rd gScenA + 5 := by
  constructor
  · intro g hm hz hc _
    refine ⟨?_, r0_lt_rd hm hz hc⟩
    rw [ra_eq hm.ne' (by omega), r0, d0]
    linarith
  · rw [rim_r]; norm_num [gScenA]

/-- Witness for C9 at the Scenario A input. -/
theorem C9_witness :
    (0 < gScenA.module ∧ 1 ≤ gScenA.teeth_number ∧ 0 ≤ gScenA.clearance ∧
      0 < cos (a0 gScenA)) ∧ ra gScenA < r0 gScenA ∧ r0 gScenA < rd gScenA := by
  have hpi := Real.pi_pos
  have hcos : 0 < cos (a0 gScenA) := by
    rw [a0_gScenA]
    exact Real.cos_pos_of_mem_Ioo ⟨by linarith, by linarith⟩
  exact ⟨⟨by norm_num [gScenA], by norm_num [gScenA], by norm_num [gScenA], hcos⟩,
    C9_radius_invariant.1 gScenA (by norm_num [gScenA]) (by norm_num [gScenA])
      (by norm_num [gScenA]) hcos⟩

/-! ### Claim C10: the root radius equals the dedendum radius -/

/-- C10: for every input with `m>0`, `z≥1`, `clearance≥0` (and at least two
samples per curve), `rb ≤ r0 < rd`, hence `rr = max(rb, rd) = rd`; the
flank's last sampled radius therefore equals `rd`, the circle on which the
tip arc is sampled, and the flank's last point coincides exactly with the
tip arc's first point. -/
theorem C10_root_radius (g : GearSpec) (hm : 0 < g.module)
    (hz : 1 ≤ g.teeth_number) (hc : 0 ≤ g.clearance) (hn : 2 ≤ g.curve_points) :
    rb g ≤ r0 g ∧ r0 g < rd g ∧ rr g = rd g ∧
      r g (g.curve_points - 1) = rd g ∧
      tsidel g (g.curve_points - 1) = ttip g 0 := by
  have hd : 0 ≤ d0 g := by rw [d0]; positivity
  have h3 := rr_eq_rd hm hz hc
  have h4 : r g (g.curve_points - 1) = rd g := by rw [r_last hn, h3]
  refine ⟨rb_le_r0 hd, r0_lt_rd hm hz hc, h3, h4, ?_⟩
  rw [tsidel, ttip, bAngle, linspace_zero, h4]

/-- Witness for C10 at the concrete input `gEx`. -/
theorem C10_witness :
    (0 < gEx.module ∧ 1 ≤ gEx.teeth_number ∧ 0 ≤ gEx.clearance ∧
      2 ≤ gEx.curve_points) ∧
      rb gEx ≤ r0 gEx ∧ r0 gEx < rd gEx ∧ rr gEx = rd gEx ∧
      r gEx (gEx.curve_points - 1) = rd gEx ∧
      tsidel gEx (gEx.curve_points - 1) = ttip gEx 0 :=
  ⟨⟨by norm_num [gEx], by norm_num [gEx], by norm_num [gEx], by norm_num [gEx]⟩,
    C10_root_radius gEx (by norm_num [gEx]) (by norm_num [gEx]) (by norm_num [gEx])
      (by norm_num [gEx])⟩

/-! ### Claim C6: the left flank construction and its radius bounds -/

/-- The left-flank construction exactly as the claim words it: sample the
radius linearly between `ra` and `rr` (the interval taken as given), then
`cos_a = clip(r0/r·cos a0, -1, 1)`, `a = arccos cos_a`, `inv_a = tan a - a`,
`s = r·(s0/d0 + inv_a0 - inv_a)`, `phi = s/r`,
`point = (cos phi · r, sin phi · r)`, in sampling order. -/
def specLeftFlank (g : GearSpec) (i : ℕ) : ℝ × ℝ :=
  let rv := linspace (ra g) (rr g) g.curve_points i
  let cosa := clip (r0 g / rv * cos (a0 g))
  let av := arccos cosa
  let inva := tan av - av
  let sv := rv * (s0 g / d0 g + (tan (a0 g) - a0 g) - inva)
  let phiv := sv / rv
  (cos phiv * rv, sin phiv * rv)

lemma dist2_tsidel (g : GearSpec) (i : ℕ) : dist2 (tsidel g i) (0, 0) = |r g i| := by
  rw [dist2, tsidel]
  have h : (cos (phi g i) * r g i - 0) ^ 2 + (sin (phi g i) * r g i - 0) ^ 2 =
      (r g i) ^ 2 := by
    linear_combination (r g i) ^ 2 * Real.sin_sq_add_cos_sq (phi g i)
  rw [h, Real.sqrt_sq_eq_abs]

lemma rd_pos {g : GearSpec} (hm : 0 < g.module) (hz : 1 ≤ g.teeth_number)
    (hc : 0 ≤ g.clearance) : 0 < rd g := by
  have hz' : (1 : ℝ) ≤ (g.teeth_number : ℝ) := by exact_mod_cast hz
  rw [rd_eq hm.ne' (by omega)]
  nlinarith

lemma neg_ra_le_rd {g : GearSpec} (hm : 0 < g.module) (hz : 1 ≤ g.teeth_number)
    (hc : 0 ≤ g.clearance) : -ra g ≤ rd g := by
  have hz' : (1 : ℝ) ≤ (g.teeth_number : ℝ) := by exact_mod_cast hz
  rw [ra_eq hm.ne' (by omega), rd_eq hm.ne' (by omega)]
  nlinarith [mul_le_mul_of_nonneg_left hz' hm.le]

/-- C6: for every valid input and index `i < curve_points`, the left flank's
`i`-th point is exactly the involute sample the claim describes (radius
sampled linearly between `ra` and `rr`, involute unwinding applied to it),
and its distance from the gear axis lies between `min(ra, rr)` and
`max(ra, rr)` (exactly, hence within any epsilon). -/
theorem C6_left_flank (g : GearSpec) (hv : Valid g) (i : ℕ)
    (hi : i < g.curve_points) :
    tsidel g i = specLeftFlank g i ∧
      min (ra g) (rr g) ≤ dist2 (tsidel g i) (0, 0) ∧
      dist2 (tsidel g i) (0, 0) ≤ max (ra g) (rr g) := by
  obtain ⟨hm, hz, -, hc, hn, -, hard⟩ := hv
  have hra_rr : ra g < rr g := lt_of_lt_of_le hard (le_max_right _ _)
  have hmin : min (ra g) (rr g) = ra g := min_eq_left hra_rr.le
  have hmax : max (ra g) (rr g) = rr g := max_eq_right hra_rr.le
  have hrdef : r g i = linspace (ra g) (rr g) g.curve_points i := rfl
  have hlow : ra g ≤ r g i := by
    have h := (linspace_between (ra g) (rr g) hn hi).1
    rwa [hmin, ← hrdef] at h
  have hhigh : r g i ≤ rr g := by
    have h := (linspace_between (ra g) (rr g) hn hi).2
    rwa [hmax, ← hrdef] at h
  have hrd_rr : rd g ≤ rr g := le_max_right _ _
  have hnegra := neg_ra_le_rd hm hz hc
  refine ⟨rfl, ?_, ?_⟩
  · rw [dist2_tsidel, hmin]
    rcases le_or_lt 0 (r g i) with h | h
    · rw [abs_of_nonneg h]; exact hlow
    · rw [abs_of_neg h]; linarith
  · rw [dist2_tsidel, hmax]
    rcases le_or_lt 0 (r g i) with h | h
    · rw [abs_of_nonneg h]; exact hhigh
    · rw [abs_of_neg h]; linarith

/-- Witness for C6 at the concrete input `gEx`, index `0`. -/
theorem C6_witness :
    Valid gEx ∧ 0 < gEx.curve_points ∧
      (tsidel gEx 0 = specLeftFlank gEx 0 ∧
        min (ra gEx) (rr gEx) ≤ dist2 (tsidel gEx 0) (0, 0) ∧
        dist2 (tsidel gEx 0) (0, 0) ≤ max (ra gEx) (rr gEx)) :=
  ⟨valid_gEx, by norm_num [gEx], C6_left_flank gEx valid_gEx 0 (by norm_num [gEx])⟩

/-! ### Claim C4: no parameter validation in the source -/

/-- C4 counterexample: the malformed input `gBad` (its `width` is `-1 ≤ 0`)
is not rejected: construction does not fail with InvalidParameter — the
constructor contains no validation at all, refuting the claim that it fails
with InvalidParameter exactly on malformed macro inputs. -/
theorem C4_counterexample :
    gBad.width ≤ 0 ∧ toothProfile gBad ≠ Except.error GearError.InvalidParameter := by
  refine ⟨by norm_num [gBad], ?_⟩
  unfold toothProfile
  cases rootFit gBad <;> simp

/-- C4 amended: the source constructor performs no input validation, so no
input whatsoever — malformed or not — produces an InvalidParameter failure;
the only fallible step is the degenerate circle fit of the root arc. -/
theorem C4_no_invalid_parameter (g : GearSpec) :
    toothProfile g ≠ Except.error GearError.InvalidParameter := by
  unfold toothProfile
  cases rootFit g <;> simp

/-! ### The circumcircle fit: algebraic facts -/

lemma collinear_concyclic_aux {x1 y1 x2 y2 x3 y3 c : ℝ}
    (h1 : x1 ^ 2 + y1 ^ 2 = c) (h2 : x2 ^ 2 + y2 ^ 2 = c) (h3 : x3 ^ 2 + y3 ^ 2 = c)
    (hdet : (x2 - x1) * (y3 - y1) - (y2 - y1) * (x3 - x1) = 0)
    (h12 : ¬(x2 = x1 ∧ y2 = y1)) :
    (x3 = x1 ∧ y3 = y1) ∨ (x3 = x2 ∧ y3 = y2) := by
  set den := (x2 - x1) ^ 2 + (y2 - y1) ^ 2 with hden_def
  have hden : den ≠ 0 := by
    intro h0
    rw [hden_def] at h0
    apply h12
    have hx : (x2 - x1) ^ 2 = 0 := by nlinarith [sq_nonneg (x2 - x1), sq_nonneg (y2 - y1)]
    have hy : (y2 - y1) ^ 2 = 0 := by nlinarith [sq_nonneg (x2 - x1), sq_nonneg (y2 - y1)]
    exact ⟨sub_eq_zero.mp (sq_eq_zero_iff.mp hx),
      sub_eq_zero.mp (sq_eq_zero_iff.mp hy)⟩
  set t := ((x2 - x1) * (x3 - x1) + (y2 - y1) * (y3 - y1)) / den with ht
  have hbx : x3 - x1 = t * (x2 - x1) := by
    rw [ht]
    field_simp
    rw [hden_def]
    linear_combination (-(y2 - y1)) * hdet
  have hby : y3 - y1 = t * (y2 - y1) := by
    rw [ht]
    field_simp
    rw [hden_def]
    linear_combination (x2 - x1) * hdet
  have e1 : 2 * (x1 * (x2 - x1) + y1 * (y2 - y1)) + den = 0 := by
    rw [hden_def]; linear_combination h2 - h1
  have e3 : 2 * (x1 * (x3 - x1) + y1 * (y3 - y1)) +
      ((x3 - x1) ^ 2 + (y3 - y1) ^ 2) = 0 := by
    linear_combination h3 - h1
  rw [hbx, hby] at e3
  have key : t * (t - 1) * den = 0 := by
    rw [hden_def]
    rw [hden_def] at e1
    linear_combination e3 - t * e1
  have ht01 : t = 0 ∨ t = 1 := by
    rcases mul_eq_zero.mp key with h | h
    · rcases mul_eq_zero.mp h with h | h
      · exact Or.inl h
      · exact Or.inr (by linarith)
    · exact absurd h hden
  rcases ht01 with h | h
  · left
    rw [h, zero_mul] at hbx hby
    exact ⟨by linarith, by linarith⟩
  · right
    rw [h, one_mul] at hbx hby
    exact ⟨by linarith, by linarith⟩

lemma noncollinear_of_concyclic {q1 q2 q3 : ℝ × ℝ} {c : ℝ}
    (h1 : q1.1 ^ 2 + q1.2 ^ 2 = c) (h2 : q2.1 ^ 2 + q2.2 ^ 2 = c)
    (h3 : q3.1 ^ 2 + q3.2 ^ 2 = c)
    (d12 : q1 ≠ q2) (d13 : q1 ≠ q3) (d23 : q2 ≠ q3) :
    (q2.1 - q1.1) * (q3.2 - q1.2) - (q2.2 - q1.2) * (q3.1 - q1.1) ≠ 0 := by
  intro hdet
  have h12 : ¬(q2.1 = q1.1 ∧ q2.2 = q1.2) := by
    rintro ⟨hx, hy⟩
    exact d12 (Prod.ext_iff.mpr ⟨hx.symm, hy.symm⟩)
  rcases collinear_concyclic_aux h1 h2 h3 hdet h12 with ⟨hx, hy⟩ | ⟨hx, hy⟩
  · exact d13 (Prod.ext_iff.mpr ⟨hx, hy⟩).symm
  · exact d23 (Prod.ext_iff.mpr ⟨hx, hy⟩).symm

lemma circle3d_eq_of_concyclic {q1 q2 q3 : ℝ × ℝ} {c : ℝ}
    (h1 : q1.1 ^ 2 + q1.2 ^ 2 = c) (h2 : q2.1 ^ 2 + q2.2 ^ 2 = c)
    (h3 : q3.1 ^ 2 + q3.2 ^ 2 = c)
    (hdet : (q2.1 - q1.1) * (q3.2 - q1.2) - (q2.2 - q1.2) * (q3.1 - q1.1) ≠ 0) :
    circle3d_by3points q1 q2 q3 = some (sqrt c, (0, 0)) := by
  rw [circle3d_by3points]
  dsimp only
  rw [if_neg (by intro h; exact hdet (by linarith))]
  have hu : q2.1 ^ 2 + q2.2 ^ 2 - q1.1 ^ 2 - q1.2 ^ 2 = 0 := by linarith
  have hv : q3.1 ^ 2 + q3.2 ^ 2 - q1.1 ^ 2 - q1.2 ^ 2 = 0 := by linarith
  rw [hu, hv]
  simp only [mul_zero, zero_sub, neg_zero, zero_div, sub_zero, zero_mul, sub_self]
  rw [h1]

/-! ### atan2 of a point given in polar form -/

lemma atan2_of_angle {R θ : ℝ} (hR : 0 < R) (hθ : θ ∈ Set.Ioc (-π) π) :
    atan2 (sin θ * R) (cos θ * R) = θ := by
  have hmk : Complex.mk (cos θ * R) (sin θ * R) =
      (R : ℂ) * (Complex.cos θ + Complex.sin θ * Complex.I) := by
    rw [Complex.mk_eq_add_mul_I]
    push_cast
    ring
  rw [atan2, hmk, Complex.arg_mul_cos_add_sin_mul_I hR hθ]

/-! ### Claim C2: the root-arc construction -/

/-- The root-arc construction exactly as the claim words it: take `p1` the
right flank's root-side endpoint, `p2` and `p3` on the circle of radius `ra`
at angles `-(phi0 + rho/2)` and `-(phi0 + rho)` with `rho = tau - 2*phi0`
(`phi0` the angular offset of the flank's endpoint on the addendum circle,
where the right flank terminates); fit the circle through them; take the
`atan2` angles of `p1` and `p3` about the center, normalize by adding `2π`
when negative, order them by `(min, max)`; sample `curve_points` angles
linearly descending from `max + 2π` to `min + 2π` and map each angle onto
the fitted circle.  (A degenerate fit keeps the same junk default as the
embedding of the source.) -/
def specRootArc (g : GearSpec) (i : ℕ) : ℝ × ℝ :=
  let phi0 := phi g 0
  let rho0 := tau g - 2 * phi0
  let q1 := tsider g (g.curve_points - 1)
  let q2 := (cos (-(phi0 + rho0 / 2)) * ra g, sin (-(phi0 + rho0 / 2)) * ra g)
  let q3 := (cos (-(phi0 + rho0)) * ra g, sin (-(phi0 + rho0)) * ra g)
  let fit := (circle3d_by3points q1 q2 q3).getD (0, (0, 0))
  let cc := fit.2
  let s1 := atan2 (q1.2 - cc.2) (q1.1 - cc.1)
  let s2 := atan2 (q3.2 - cc.2) (q3.1 - cc.1)
  let s1n := if s1 < 0 then s1 + 2 * π else s1
  let s2n := if s2 < 0 then s2 + 2 * π else s2
  let ang := linspace (max s1n s2n + 2 * π) (min s1n s2n + 2 * π) g.curve_points i
  (cc.1 + fit.1 * cos ang, cc.2 + fit.1 * sin ang)

lemma p2_alt (g : GearSpec) :
    p2 g = (cos (-(phi g 0 + (tau g - 2 * phi g 0) / 2)) * ra g,
      sin (-(phi g 0 + (tau g - 2 * phi g 0) / 2)) * ra g) := by
  rw [p2, show -phi g 0 - rho g / 2 = -(phi g 0 + (tau g - 2 * phi g 0) / 2) by
    rw [rho]; ring]

lemma p3_alt (g : GearSpec) :
    p3 g = (cos (-(phi g 0 + (tau g - 2 * phi g 0))) * ra g,
      sin (-(phi g 0 + (tau g - 2 * phi g 0))) * ra g) := by
  rw [p3, show -phi g 0 - rho g = -(phi g 0 + (tau g - 2 * phi g 0)) by
    rw [rho]; ring]

lemma p3_fst (g : GearSpec) :
    cos (-(phi g 0 + (tau g - 2 * phi g 0))) * ra g = (p3 g).1 := by
  rw [p3_alt]

lemma p3_snd (g : GearSpec) :
    sin (-(phi g 0 + (tau g - 2 * phi g 0))) * ra g = (p3 g).2 := by
  rw [p3_alt]

lemma bcr_nonneg (g : GearSpec) : 0 ≤ bcr g := by
  rw [bcr, rootFit, circle3d_by3points]
  dsimp only
  split
  · simp
  · simpa using Real.sqrt_nonneg _

/-- C2: for every input and index, the source's root-arc point is exactly
the point produced by the construction the claim describes (three-point
circle fit, normalized `atan2` angles, descending sweep from `t2+2π` to
`t1+2π`), and it lies at distance exactly `bcr` from the fitted center
`bcxy` — in particular within the claimed `1e-9`. -/
theorem C2_root_arc (g : GearSpec) (i : ℕ) :
    troot g i = specRootArc g i ∧ dist2 (troot g i) (bcxy g) = bcr g := by
  constructor
  · rw [specRootArc]
    dsimp only
    rw [← p2_alt, ← p3_alt, p3_fst, p3_snd, ← p1]
    rw [troot, tAngle, tHi, tLo, t1n, t2n, t1, t2, bcr, bcxy, rootFit]
    simp only [mul_comm (2 : ℝ) π]
  · have h : ((troot g i).1 - (bcxy g).1) ^ 2 + ((troot g i).2 - (bcxy g).2) ^ 2 =
        (bcr g) ^ 2 := by
      rw [troot]
      dsimp only
      linear_combination (bcr g) ^ 2 * Real.sin_sq_add_cos_sq (tAngle g i)
    rw [dist2, h, Real.sqrt_sq (bcr_nonneg g)]

/-! ### Claim C7: when the fillet computation degenerates -/

lemma a0_gZ1 : a0 gZ1 = 0 := by simp [a0, gZ1]

lemma ra_gZ1 : ra gZ1 = -(1 / 2 : ℝ) := by
  rw [ra_eq (by norm_num [gZ1]) (by norm_num [gZ1])]
  norm_num [gZ1]

lemma r_gZ1_zero : r gZ1 0 = -(1 / 2 : ℝ) := by rw [r_zero, ra_gZ1]

lemma phi_gZ1_zero : phi gZ1 0 = 3 * π / 2 := by
  have hcos : cos_a gZ1 0 = -1 := by
    rw [cos_a, r_gZ1_zero, a0_gZ1, Real.cos_zero, r0, d0]
    norm_num [gZ1]
  have haV : aVal gZ1 0 = π := by
    rw [aVal, hcos, show clip (-1 : ℝ) = -1 by rw [clip]; norm_num, Real.arccos_neg_one]
  have hinv : inv_a gZ1 0 = -π := by
    rw [inv_a, haV, Real.tan_pi]; ring
  have hinv0 : inv_a0 gZ1 = 0 := by
    rw [inv_a0, a0_gZ1, Real.tan_zero]; ring
  have hs0 : s0 gZ1 = π / 2 := by
    rw [s0, a0_gZ1, Real.tan_zero]; norm_num [gZ1]
  rw [phi, sVal, r_gZ1_zero, hinv, hinv0, hs0, d0]
  norm_num [gZ1]
  ring

lemma rho_gZ1 : rho gZ1 = -π := by
  rw [rho, phi_gZ1_zero, tau]
  norm_num [gZ1]
  ring

lemma p1_gZ1 : p1 gZ1 = (0, -(1 / 2 : ℝ)) := by
  have hn1 : gZ1.curve_points - 1 = 1 := rfl
  have hn0 : gZ1.curve_points - 1 - 1 = 0 := rfl
  rw [p1, hn1, tsider, hn0, phi_gZ1_zero, r_gZ1_zero]
  have h32 : -(3 * π / 2) = -(π + π / 2) := by ring
  rw [h32, Real.cos_neg, Real.sin_neg, Real.cos_add, Real.sin_add, Real.cos_pi,
    Real.sin_pi, Real.cos_pi_div_two, Real.sin_pi_div_two]
  norm_num

lemma p2_gZ1 : p2 gZ1 = ((1 / 2 : ℝ), 0) := by
  rw [p2, phi_gZ1_zero, rho_gZ1, ra_gZ1]
  have h : -(3 * π / 2) - -π / 2 = -π := by ring
  rw [h, Real.cos_neg, Real.sin_neg, Real.cos_pi, Real.sin_pi]
  norm_num

lemma p3_gZ1 : p3 gZ1 = (0, (1 / 2 : ℝ)) := by
  rw [p3, phi_gZ1_zero, rho_gZ1, ra_gZ1]
  have h : -(3 * π / 2) - -π = -(π / 2) := by ring
  rw [h, Real.cos_neg, Real.sin_neg, Real.cos_pi_div_two, Real.sin_pi_div_two]
  norm_num

lemma rootFit_gZ1 : rootFit gZ1 = some (sqrt (1 / 4 : ℝ), (0, 0)) := by
  rw [rootFit, p1_gZ1, p2_gZ1, p3_gZ1]
  exact circle3d_eq_of_concyclic (by norm_num) (by norm_num) (by norm_num) (by norm_num)

/-- C7 counterexample: for the one-tooth input `gZ1` the angular gap is
negative (`rho = -π ≤ 0`), yet the root-fillet circle fit succeeds and no
DegenerateGeometry failure occurs — refuting the claim that the computation
fails whenever `rho ≤ 0`. -/
theorem C7_counterexample :
    rho gZ1 ≤ 0 ∧ (rootFit gZ1).isSome = true ∧
      toothProfile gZ1 ≠ Except.error GearError.DegenerateGeometry := by
  refine ⟨by rw [rho_gZ1]; exact neg_nonpos.mpr Real.pi_nonneg, by rw [rootFit_gZ1]; rfl, ?_⟩
  unfold toothProfile
  rw [rootFit_gZ1]
  simp

/-- C7 amended: the root-fillet computation fails with DegenerateGeometry
exactly when the three fillet-fit points are collinear (zero determinant of
the perpendicular-bisector system); `rho ≤ 0` by itself does not cause a
failure, and the check happens when the fillet circle is fit — i.e. during
construction, after the parameter derivation, not as part of any separate
parameter validation. -/
theorem C7_degenerate_geometry (g : GearSpec) :
    toothProfile g = Except.error GearError.DegenerateGeometry ↔
      ((p2 g).1 - (p1 g).1) * ((p3 g).2 - (p1 g).2) -
        ((p2 g).2 - (p1 g).2) * ((p3 g).1 - (p1 g).1) = 0 := by
  have hnone : rootFit g = none ↔
      ((p2 g).1 - (p1 g).1) * ((p3 g).2 - (p1 g).2) -
        ((p2 g).2 - (p1 g).2) * ((p3 g).1 - (p1 g).1) = 0 := by
    rw [rootFit, circle3d_by3points]
    dsimp only
    constructor
    · intro h
      by_contra hd
      rw [if_neg (fun hc => hd (by linarith))] at h
      exact Option.some_ne_none _ h
    · intro hd
      rw [if_pos (by rw [hd, mul_zero])]
  constructor
  · intro h
    unfold toothProfile at h
    cases hr : rootFit g with
    | none => exact hnone.mp hr
    | some v => rw [hr] at h; exact absurd h (by simp)
  · intro hd
    unfold toothProfile
    rw [hnone.mpr hd]

/-! ### Claim C3: the tip arc -/

lemma a0_gEx2 : a0 gEx2 = 0 := by simp [a0, gEx2]

lemma valid_gEx2 : Valid gEx2 := by
  refine ⟨by norm_num [gEx2], by norm_num [gEx2], by norm_num [gEx2], by norm_num [gEx2],
    by norm_num [gEx2], ?_, ?_⟩
  · rw [a0_gEx2]; simp
  · rw [ra_eq (by norm_num [gEx2]) (by norm_num [gEx2]),
      rd_eq (by norm_num [gEx2]) (by norm_num [gEx2])]
    norm_num [gEx2]

lemma ra_gEx2 : ra gEx2 = 1 := by
  rw [ra_eq (by norm_num [gEx2]) (by norm_num [gEx2])]
  norm_num [gEx2]

lemma rd_gEx2 : rd gEx2 = 13 / 4 := by
  rw [rd_eq (by norm_num [gEx2]) (by norm_num [gEx2])]
  norm_num [gEx2]

lemma rr_gEx2 : rr gEx2 = 13 / 4 := by
  rw [rr_eq_rd (by norm_num [gEx2]) (by norm_num [gEx2]) (by norm_num [gEx2]), rd_gEx2]

lemma phi_gEx2_zero : phi gEx2 0 = π / 8 := by
  have hr : r gEx2 0 = 1 := by rw [r_zero, ra_gEx2]
  have hcos : cos_a gEx2 0 = 2 := by
    rw [cos_a, hr, a0_gEx2, Real.cos_zero, r0, d0]
    norm_num [gEx2]
  have haV : aVal gEx2 0 = 0 := by
    rw [aVal, hcos, show clip (2 : ℝ) = 1 by rw [clip]; norm_num, Real.arccos_one]
  have hinv : inv_a gEx2 0 = 0 := by
    rw [inv_a, haV, Real.tan_zero]; ring
  have hinv0 : inv_a0 gEx2 = 0 := by
    rw [inv_a0, a0_gEx2, Real.tan_zero]; ring
  have hs0 : s0 gEx2 = π / 2 := by
    rw [s0, a0_gEx2, Real.tan_zero]; norm_num [gEx2]
  rw [phi, sVal, hr, hinv, hinv0, hs0, d0]
  norm_num [gEx2]
  ring

lemma sqrt_105_169 : sqrt (105 / 169 : ℝ) = sqrt 105 / 13 := by
  rw [show (105 / 169 : ℝ) = 105 / 13 ^ 2 by norm_num,
    Real.sqrt_div (by norm_num : (0 : ℝ) ≤ 105), Real.sqrt_sq (by norm_num : (0 : ℝ) ≤ 13)]

lemma phi_gEx2_one : phi gEx2 1 = π / 8 - sqrt 105 / 8 + arccos (8 / 13) := by
  have hn1 : gEx2.curve_points - 1 = 1 := rfl
  have hr : r gEx2 1 = 13 / 4 := by
    have h := r_last (g := gEx2) (by norm_num [gEx2])
    rw [hn1] at h
    rw [h, rr_gEx2]
  have hcos : cos_a gEx2 1 = 8 / 13 := by
    rw [cos_a, hr, a0_gEx2, Real.cos_zero, r0, d0]
    norm_num [gEx2]
  have haV : aVal gEx2 1 = arccos (8 / 13) := by
    rw [aVal, hcos, show clip (8 / 13 : ℝ) = 8 / 13 by rw [clip]; norm_num]
  have hinv : inv_a gEx2 1 = sqrt 105 / 8 - arccos (8 / 13) := by
    rw [inv_a, haV, Real.tan_arccos,
      show (1 : ℝ) - (8 / 13) ^ 2 = 105 / 169 by norm_num, sqrt_105_169]
    ring
  have hinv0 : inv_a0 gEx2 = 0 := by
    rw [inv_a0, a0_gEx2, Real.tan_zero]; ring
  have hs0 : s0 gEx2 = π / 2 := by
    rw [s0, a0_gEx2, Real.tan_zero]; norm_num [gEx2]
  rw [phi, sVal, hr, hinv, hinv0, hs0, d0]
  have h4 : (gEx2.module * (gEx2.teeth_number : ℝ)) = 4 := by norm_num [gEx2]
  rw [h4]
  field_simp
  ring

lemma arccos_813_lt : arccos (8 / 13 : ℝ) < sqrt 105 / 8 := by
  have h0 : (0 : ℝ) < arccos (8 / 13) := Real.arccos_pos.mpr (by norm_num)
  have h2 : arccos (8 / 13 : ℝ) < π / 2 := Real.arccos_lt_pi_div_two.mpr (by norm_num)
  have htan := Real.lt_tan h0 h2
  rwa [Real.tan_arccos, show (1 : ℝ) - (8 / 13) ^ 2 = 105 / 169 by norm_num,
    sqrt_105_169, show sqrt 105 / 13 / (8 / 13) = sqrt 105 / 8 by ring] at htan

lemma sqrt_105_lt : sqrt (105 : ℝ) < 5 * π := by
  have hpi := Real.pi_gt_three
  rw [Real.sqrt_lt' (by linarith)]
  nlinarith

/-- C3 counterexample: at the valid input `gEx2` the tip arc does not start
at the angle `phi_end` taken at `r = ra` (the flank's angular coordinate at
the addendum radius): the source sweeps from the flank's angle at its last
sampled radius `r = rr = rd` instead, and at this input the two angles give
different first points. -/
theorem C3_counterexample :
    Valid gEx2 ∧
      ttip gEx2 0 ≠ (cos (phi gEx2 0) * rd gEx2, sin (phi gEx2 0) * rd gEx2) := by
  refine ⟨valid_gEx2, ?_⟩
  have hb0 : bAngle gEx2 0 = phi gEx2 1 := by
    have hn1 : gEx2.curve_points - 1 = 1 := rfl
    rw [bAngle, hn1, linspace_zero]
  have hpi := Real.pi_pos
  have hx := Real.arccos_nonneg (8 / 13 : ℝ)
  have hlt : phi gEx2 1 < phi gEx2 0 := by
    rw [phi_gEx2_zero, phi_gEx2_one]
    have := arccos_813_lt
    linarith
  have hlo : -(π / 2) ≤ phi gEx2 1 := by
    rw [phi_gEx2_one]
    have := sqrt_105_lt
    linarith
  have hhi : phi gEx2 0 ≤ π / 2 := by
    rw [phi_gEx2_zero]; linarith
  have hsin : sin (phi gEx2 1) < sin (phi gEx2 0) :=
    Real.strictMonoOn_sin ⟨hlo, le_trans hlt.le hhi⟩ ⟨le_trans hlo hlt.le, hhi⟩ hlt
  intro heq
  have hsnd := congrArg Prod.snd heq
  rw [ttip, hb0, rd_gEx2] at hsnd
  simp only at hsnd
  nlinarith

lemma bAngle_reflect {g : GearSpec} (hn : 2 ≤ g.curve_points) {i : ℕ}
    (hi : i < g.curve_points) :
    bAngle g (g.curve_points - 1 - i) = -bAngle g i := by
  have h2 : (2 : ℝ) ≤ (g.curve_points : ℝ) := by exact_mod_cast hn
  have hne : (g.curve_points : ℝ) - 1 ≠ 0 := by linarith
  have hi1 : i ≤ g.curve_points - 1 := Nat.le_sub_one_of_lt hi
  have h1 : 1 ≤ g.curve_points := by omega
  have hcast : ((g.curve_points - 1 - i : ℕ) : ℝ) = (g.curve_points : ℝ) - 1 - i := by
    rw [Nat.cast_sub hi1, Nat.cast_sub h1, Nat.cast_one]
  rw [bAngle, bAngle, linspace, linspace, hcast]
  field_simp
  ring

/-- C3 amended: every tip-arc point lies exactly on the circle of radius
`rd`; the angle samples sweep linearly from `+phi_end` to `-phi_end` over
exactly `curve_points` samples, where `phi_end` is the left flank's terminal
angular coordinate at its last sampled radius `r = rr` (which equals `rd`
for valid inputs) — not at `r = ra` as the claim stated; and the arc is
exactly symmetric about angle `0`. -/
theorem C3_tip_arc (g : GearSpec) (hn : 2 ≤ g.curve_points) (i : ℕ)
    (hi : i < g.curve_points) :
    (ttip g i).1 ^ 2 + (ttip g i).2 ^ 2 = rd g ^ 2 ∧
      bAngle g i = linspace (phi g (g.curve_points - 1))
        (-phi g (g.curve_points - 1)) g.curve_points i ∧
      (ttipList g).length = g.curve_points ∧
      ttip g (g.curve_points - 1 - i) = ((ttip g i).1, -(ttip g i).2) := by
  refine ⟨?_, rfl, by simp [ttipList], ?_⟩
  · rw [ttip]
    linear_combination (rd g) ^ 2 * Real.sin_sq_add_cos_sq (bAngle g i)
  · rw [ttip, ttip, bAngle_reflect hn hi, Real.cos_neg, Real.sin_neg, neg_mul]

/-- Witness for C3 (amended) at the concrete input `gEx`, index `3`. -/
theorem C3_witness :
    (2 ≤ gEx.curve_points ∧ 3 < gEx.curve_points) ∧
      ((ttip gEx 3).1 ^ 2 + (ttip gEx 3).2 ^ 2 = rd gEx ^ 2 ∧
        bAngle gEx 3 = linspace (phi gEx (gEx.curve_points - 1))
          (-phi gEx (gEx.curve_points - 1)) gEx.curve_points 3 ∧
        (ttipList gEx).length = gEx.curve_points ∧
        ttip gEx (gEx.curve_points - 1 - 3) = ((ttip gEx 3).1, -(ttip gEx 3).2)) :=
  ⟨⟨by norm_num [gEx], by norm_num [gEx]⟩,
    C3_tip_arc gEx (by norm_num [gEx]) 3 (by norm_num [gEx])⟩

/-! ### Claim C1: boundary continuity -/

lemma p1_eq (g : GearSpec) :
    p1 g = (cos (-phi g 0) * ra g, sin (-phi g 0) * ra g) := by
  rw [p1, tsider, Nat.sub_self, r_zero]

lemma cos_add_four_pi (x : ℝ) : cos (x + π * 2 + π * 2) = cos x := by
  rw [mul_comm π 2, Real.cos_add_two_pi, Real.cos_add_two_pi]

lemma sin_add_four_pi (x : ℝ) : sin (x + π * 2 + π * 2) = sin x := by
  rw [mul_comm π 2, Real.sin_add_two_pi, Real.sin_add_two_pi]

/-- For a nondegenerate fillet (`z ≥ 3`, `0 < phi[0]`, `0 < rho`) the three
construction points lie on the circle of radius `ra` about the origin, so
the fitted circle is that circle, and the normalized sweep runs from the
angle of `p1` down to the angle of `p3`. -/
lemma root_geometry {g : GearSpec} (hm : 0 < g.module) (hz3 : 3 ≤ g.teeth_number)
    (hphi : 0 < phi g 0) (hrho : 0 < rho g) :
    bcr g = ra g ∧ bcxy g = (0, 0) ∧
      tHi g = -phi g 0 + π * 2 ∧ tLo g = -phi g 0 - rho g + π * 2 := by
  have ha : 0 < ra g := ra_pos hm hz3
  have h3r : (3 : ℝ) ≤ (g.teeth_number : ℝ) := by exact_mod_cast hz3
  have hzpos : (0 : ℝ) < (g.teeth_number : ℝ) := by linarith
  have hpi := Real.pi_pos
  have hτpos : 0 < tau g := by rw [tau]; positivity
  have hτle : tau g ≤ 2 * π / 3 := by
    rw [tau]
    calc π * 2 / (g.teeth_number : ℝ) ≤ π * 2 / 3 :=
          div_le_div_of_nonneg_left (by positivity) (by norm_num) h3r
      _ = 2 * π / 3 := by ring
  have h2φ : phi g 0 * 2 < tau g := by
    have h := hrho; rw [rho] at h; linarith
  have hφ3 : phi g 0 < π / 3 := by linarith
  have hφρ : phi g 0 + rho g < π := by
    rw [rho]; linarith
  have np1 : (p1 g).1 ^ 2 + (p1 g).2 ^ 2 = (ra g) ^ 2 := by
    rw [p1_eq]
    dsimp only
    linear_combination (ra g) ^ 2 * Real.sin_sq_add_cos_sq (-phi g 0)
  have np2 : (p2 g).1 ^ 2 + (p2 g).2 ^ 2 = (ra g) ^ 2 := by
    rw [p2]
    dsimp only
    linear_combination (ra g) ^ 2 * Real.sin_sq_add_cos_sq (-phi g 0 - rho g / 2)
  have np3 : (p3 g).1 ^ 2 + (p3 g).2 ^ 2 = (ra g) ^ 2 := by
    rw [p3]
    dsimp only
    linear_combination (ra g) ^ 2 * Real.sin_sq_add_cos_sq (-phi g 0 - rho g)
  have hx1 : (p1 g).1 = cos (phi g 0) * ra g := by
    rw [p1_eq]
    dsimp only
    rw [Real.cos_neg]
  have hx2 : (p2 g).1 = cos (phi g 0 + rho g / 2) * ra g := by
    rw [p2]
    dsimp only
    rw [show -phi g 0 - rho g / 2 = -(phi g 0 + rho g / 2) by ring, Real.cos_neg]
  have hx3 : (p3 g).1 = cos (phi g 0 + rho g) * ra g := by
    rw [p3]
    dsimp only
    rw [show -phi g 0 - rho g = -(phi g 0 + rho g) by ring, Real.cos_neg]
  have hmono12 : cos (phi g 0 + rho g / 2) < cos (phi g 0) :=
    Real.strictAntiOn_cos ⟨hphi.le, by linarith⟩ ⟨by linarith, by linarith⟩ (by linarith)
  have hmono23 : cos (phi g 0 + rho g) < cos (phi g 0 + rho g / 2) :=
    Real.strictAntiOn_cos ⟨by linarith, by linarith⟩ ⟨by linarith, by linarith⟩ (by linarith)
  have d12 : p1 g ≠ p2 g := by
    intro h
    have h1 := congrArg Prod.fst h
    rw [hx1, hx2] at h1
    nlinarith
  have d13 : p1 g ≠ p3 g := by
    intro h
    have h1 := congrArg Prod.fst h
    rw [hx1, hx3] at h1
    nlinarith
  have d23 : p2 g ≠ p3 g := by
    intro h
    have h1 := congrArg Prod.fst h
    rw [hx2, hx3] at h1
    nlinarith
  have hdet := noncollinear_of_concyclic np1 np2 np3 d12 d13 d23
  have hfit : rootFit g = some (sqrt ((ra g) ^ 2), (0, 0)) := by
    rw [rootFit]
    exact circle3d_eq_of_concyclic np1 np2 np3 hdet
  rw [Real.sqrt_sq ha.le] at hfit
  have hbcr : bcr g = ra g := by rw [bcr, hfit]; rfl
  have hbcxy : bcxy g = (0, 0) := by rw [bcxy, hfit]; rfl
  have ht1 : t1 g = -phi g 0 := by
    rw [t1, hbcxy, p1_eq]
    dsimp only
    rw [sub_zero, sub_zero]
    exact atan2_of_angle ha ⟨by linarith, by linarith⟩
  have ht2 : t2 g = -phi g 0 - rho g := by
    rw [t2, hbcxy, p3]
    dsimp only
    rw [sub_zero, sub_zero]
    exact atan2_of_angle ha ⟨by linarith, by linarith⟩
  have ht1n : t1n g = -phi g 0 + π * 2 := by
    rw [t1n, ht1, if_pos (by linarith)]
  have ht2n : t2n g = -phi g 0 - rho g + π * 2 := by
    rw [t2n, ht2, if_pos (by linarith)]
  refine ⟨hbcr, hbcxy, ?_, ?_⟩
  · rw [tHi, ht1n, ht2n]
    exact max_eq_left (by linarith)
  · rw [tLo, ht1n, ht2n]
    exact min_eq_right (by linarith)

/-- C1 amended: for every valid `GearSpec` with at least three teeth and a
nondegenerate fillet span (`0 < phi[0]` and `0 < rho`, i.e. `2·phi[0] <
tau`), the four curves concatenate into one continuous boundary: the left
flank's last point equals the tip arc's first point, the tip arc's last
point equals the right flank's first point, the right flank's last point
equals the root arc's first point, and the root arc's last point rotated by
`tau` about the origin equals the left flank's first point — all exactly,
hence within the claimed `1e-9`. -/
theorem C1_boundary_continuity (g : GearSpec) (hv : Valid g)
    (hz3 : 3 ≤ g.teeth_number) (hphi : 0 < phi g 0) (hrho : 0 < rho g) :
    tsidel g (g.curve_points - 1) = ttip g 0 ∧
      ttip g (g.curve_points - 1) = tsider g 0 ∧
      tsider g (g.curve_points - 1) = troot g 0 ∧
      rotate (tau g) (troot g (g.curve_points - 1)) = tsidel g 0 := by
  obtain ⟨hm, hz, -, hc, hn, -, -⟩ := hv
  obtain ⟨hbcr, hbcxy, hHi, hLo⟩ := root_geometry hm hz3 hphi hrho
  refine ⟨?_, ?_, ?_, ?_⟩
  · rw [tsidel, ttip, bAngle, linspace_zero, r_last hn, rr_eq_rd hm hz hc]
  · rw [ttip, tsider, Nat.sub_zero, bAngle, linspace_last _ _ hn, r_last hn,
      rr_eq_rd hm hz hc]
  · rw [← p1, troot, tAngle, linspace_zero, hHi, hbcr, hbcxy, p1_eq]
    dsimp only
    rw [cos_add_four_pi, sin_add_four_pi]
    exact Prod.ext_iff.mpr ⟨by dsimp only; ring, by dsimp only; ring⟩
  · rw [troot, tAngle, linspace_last _ _ hn, hLo, hbcr, hbcxy, rotate]
    dsimp only
    rw [cos_add_four_pi, sin_add_four_pi, tsidel, r_zero]
    have hco := Real.cos_add (tau g) (-phi g 0 - rho g)
    have hsi := Real.sin_add (tau g) (-phi g 0 - rho g)
    have harg : tau g + (-phi g 0 - rho g) = phi g 0 := by rw [rho]; ring
    rw [harg] at hco hsi
    refine Prod.ext_iff.mpr ⟨?_, ?_⟩
    · dsimp only
      linear_combination (-(ra g)) * hco
    · dsimp only
      linear_combination (-(ra g)) * hsi

lemma ra_gEx : ra gEx = 1 := by
  rw [ra_eq (by norm_num [gEx]) (by norm_num [gEx])]
  norm_num [gEx]

lemma phi_gEx_zero : phi gEx 0 = π / 8 := by
  have hr : r gEx 0 = 1 := by rw [r_zero, ra_gEx]
  have hcos : cos_a gEx 0 = 2 := by
    rw [cos_a, hr, a0_gEx, Real.cos_zero, r0, d0]
    norm_num [gEx]
  have haV : aVal gEx 0 = 0 := by
    rw [aVal, hcos, show clip (2 : ℝ) = 1 by rw [clip]; norm_num, Real.arccos_one]
  have hinv : inv_a gEx 0 = 0 := by
    rw [inv_a, haV, Real.tan_zero]; ring
  have hinv0 : inv_a0 gEx = 0 := by
    rw [inv_a0, a0_gEx, Real.tan_zero]; ring
  have hs0 : s0 gEx = π / 2 := by
    rw [s0, a0_gEx, Real.tan_zero]; norm_num [gEx]
  rw [phi, sVal, hr, hinv, hinv0, hs0, d0]
  norm_num [gEx]
  ring

lemma rho_gEx : rho gEx = π / 4 := by
  rw [rho, phi_gEx_zero, tau]
  norm_num [gEx]
  ring

/-- Witness for C1 (amended) at the concrete input `gEx`. -/
theorem C1_witness :
    (Valid gEx ∧ 3 ≤ gEx.teeth_number ∧ 0 < phi gEx 0 ∧ 0 < rho gEx) ∧
      (tsidel gEx (gEx.curve_points - 1) = ttip gEx 0 ∧
        ttip gEx (gEx.curve_points - 1) = tsider gEx 0 ∧
        tsider gEx (gEx.curve_points - 1) = troot gEx 0 ∧
        rotate (tau gEx) (troot gEx (gEx.curve_points - 1)) = tsidel gEx 0) := by
  have hpi := Real.pi_pos
  have hphi : 0 < phi gEx 0 := by rw [phi_gEx_zero]; positivity
  have hrho : 0 < rho gEx := by rw [rho_gEx]; positivity
  exact ⟨⟨valid_gEx, by norm_num [gEx], hphi, hrho⟩,
    C1_boundary_continuity gEx valid_gEx (by norm_num [gEx]) hphi hrho⟩

lemma ra_gZ2 : ra gZ2 = 0 := by
  rw [ra_eq (by norm_num [gZ2]) (by norm_num [gZ2])]
  norm_num [gZ2]

lemma a0_gZ2 : a0 gZ2 = 0 := by simp [a0, gZ2]

lemma valid_gZ2 : Valid gZ2 := by
  refine ⟨by norm_num [gZ2], by norm_num [gZ2], by norm_num [gZ2], by norm_num [gZ2],
    by norm_num [gZ2], ?_, ?_⟩
  · rw [a0_gZ2]; simp
  · rw [ra_gZ2, rd_eq (by norm_num [gZ2]) (by norm_num [gZ2])]
    norm_num [gZ2]

lemma p1_gZ2 : p1 gZ2 = (0, 0) := by
  rw [p1_eq, ra_gZ2]
  norm_num

lemma p2_gZ2 : p2 gZ2 = (0, 0) := by
  rw [p2, ra_gZ2]
  norm_num

lemma p3_gZ2 : p3 gZ2 = (0, 0) := by
  rw [p3, ra_gZ2]
  norm_num

lemma rootFit_gZ2 : rootFit gZ2 = none := by
  rw [rootFit, p1_gZ2, p2_gZ2, p3_gZ2, circle3d_by3points]
  dsimp only
  rw [if_pos (by norm_num)]

/-- C1 counterexample: the input `gZ2` (`m=1, z=2`) passes every validity
condition the spec states, yet its addendum radius is `0`, the three fillet
construction points coincide at the origin and the circle fit degenerates:
construction fails, producing no boundary at all — so the claim does not
hold for every valid `GearSpec`. -/
theorem C1_counterexample :
    Valid gZ2 ∧ toothProfile gZ2 = Except.error GearError.DegenerateGeometry := by
  refine ⟨valid_gZ2, ?_⟩
  unfold toothProfile
  rw [rootFit_gZ2]

end CqGears

end
